import Mathlib

/-!
Verification development for the `devops_tools` repository: a shallow
embedding of the two CI scripts (`validate_ticket.py`, the Linear-ticket
validator, and `generate_notes.py`, the release-notes generator) and
proofs of the specified properties.

Strings are modelled as `List Char` where character-level matching
matters; Python regular-expression character classes are modelled by
explicit Boolean predicates on `Char`.
-/

/-- The regex class `[A-Z]` (ASCII uppercase), from the pattern
`^([A-Z]+-\d+):\s(.{10,})` in `validate_ticket.py`. -/
def upperAZ (c : Char) : Bool :=
  'A' ≤ c && c ≤ 'Z'

/-- The regex class `\d` for `str` patterns: any Unicode decimal digit
(category Nd; the ranges are CPython 3.11's table, 660 code points). -/
def digitClass (c : Char) : Bool :=
  let n := c.toNat
  (0x30 ≤ n && n ≤ 0x39) || (0x660 ≤ n && n ≤ 0x669) || (0x6f0 ≤ n && n ≤ 0x6f9) ||
  (0x7c0 ≤ n && n ≤ 0x7c9) || (0x966 ≤ n && n ≤ 0x96f) || (0x9e6 ≤ n && n ≤ 0x9ef) ||
  (0xa66 ≤ n && n ≤ 0xa6f) || (0xae6 ≤ n && n ≤ 0xaef) || (0xb66 ≤ n && n ≤ 0xb6f) ||
  (0xbe6 ≤ n && n ≤ 0xbef) || (0xc66 ≤ n && n ≤ 0xc6f) || (0xce6 ≤ n && n ≤ 0xcef) ||
  (0xd66 ≤ n && n ≤ 0xd6f) || (0xde6 ≤ n && n ≤ 0xdef) || (0xe50 ≤ n && n ≤ 0xe59) ||
  (0xed0 ≤ n && n ≤ 0xed9) || (0xf20 ≤ n && n ≤ 0xf29) || (0x1040 ≤ n && n ≤ 0x1049) ||
  (0x1090 ≤ n && n ≤ 0x1099) || (0x17e0 ≤ n && n ≤ 0x17e9) || (0x1810 ≤ n && n ≤ 0x1819) ||
  (0x1946 ≤ n && n ≤ 0x194f) || (0x19d0 ≤ n && n ≤ 0x19d9) || (0x1a80 ≤ n && n ≤ 0x1a89) ||
  (0x1a90 ≤ n && n ≤ 0x1a99) || (0x1b50 ≤ n && n ≤ 0x1b59) || (0x1bb0 ≤ n && n ≤ 0x1bb9) ||
  (0x1c40 ≤ n && n ≤ 0x1c49) || (0x1c50 ≤ n && n ≤ 0x1c59) || (0xa620 ≤ n && n ≤ 0xa629) ||
  (0xa8d0 ≤ n && n ≤ 0xa8d9) || (0xa900 ≤ n && n ≤ 0xa909) || (0xa9d0 ≤ n && n ≤ 0xa9d9) ||
  (0xa9f0 ≤ n && n ≤ 0xa9f9) || (0xaa50 ≤ n && n ≤ 0xaa59) || (0xabf0 ≤ n && n ≤ 0xabf9) ||
  (0xff10 ≤ n && n ≤ 0xff19) || (0x104a0 ≤ n && n ≤ 0x104a9) || (0x10d30 ≤ n && n ≤ 0x10d39) ||
  (0x11066 ≤ n && n ≤ 0x1106f) || (0x110f0 ≤ n && n ≤ 0x110f9) || (0x11136 ≤ n && n ≤ 0x1113f) ||
  (0x111d0 ≤ n && n ≤ 0x111d9) || (0x112f0 ≤ n && n ≤ 0x112f9) || (0x11450 ≤ n && n ≤ 0x11459) ||
  (0x114d0 ≤ n && n ≤ 0x114d9) || (0x11650 ≤ n && n ≤ 0x11659) || (0x116c0 ≤ n && n ≤ 0x116c9) ||
  (0x11730 ≤ n && n ≤ 0x11739) || (0x118e0 ≤ n && n ≤ 0x118e9) || (0x11950 ≤ n && n ≤ 0x11959) ||
  (0x11c50 ≤ n && n ≤ 0x11c59) || (0x11d50 ≤ n && n ≤ 0x11d59) || (0x11da0 ≤ n && n ≤ 0x11da9) ||
  (0x16a60 ≤ n && n ≤ 0x16a69) || (0x16ac0 ≤ n && n ≤ 0x16ac9) || (0x16b50 ≤ n && n ≤ 0x16b59) ||
  (0x1d7ce ≤ n && n ≤ 0x1d7ff) || (0x1e140 ≤ n && n ≤ 0x1e149) || (0x1e2f0 ≤ n && n ≤ 0x1e2f9) ||
  (0x1e950 ≤ n && n ≤ 0x1e959) || (0x1fbf0 ≤ n && n ≤ 0x1fbf9)

/-- The regex class `\s` for `str` patterns: Python's Unicode
whitespace (CPython 3.11's table): tab through carriage return, the
separators FS/GS/RS/US, space, NEL, NBSP, Ogham space mark, the
`U+2000`-`U+200A` spaces, line and paragraph separators, narrow NBSP,
medium mathematical space and ideographic space. -/
def spaceClass (c : Char) : Bool :=
  let n := c.toNat
  (0x9 ≤ n && n ≤ 0xd) || (0x1c ≤ n && n ≤ 0x20) || n == 0x85 || n == 0xa0 ||
  n == 0x1680 || (0x2000 ≤ n && n ≤ 0x200a) || n == 0x2028 || n == 0x2029 ||
  n == 0x202f || n == 0x205f || n == 0x3000

/-- The regex `.` without DOTALL: any character except newline. -/
def dotClass (c : Char) : Bool :=
  c != '\n'

/-- The validator's ticket pattern `^([A-Z]+-\d+):\s(.{10,})` applied with
`re.search` (anchored at the start by `^`, trailing input ignored).
Returns the capture group 1 (the ticket id `PREFIX-DIGITS`) on a match.
Because `-` is not in `[A-Z]` and `:` is not in `\d`, the greedy `+`
repetitions cannot backtrack, so the maximal-munch parse below is exactly
the regex's acceptance. `.{10,}` requires ten characters other than
newline immediately after the `\s` character. -/
def ticketPatternMatch (s : List Char) : Option (List Char) :=
  if s.takeWhile upperAZ = [] then none else
  match s.dropWhile upperAZ with
  | '-' :: rest2 =>
    if rest2.takeWhile digitClass = [] then none else
    match rest2.dropWhile digitClass with
    | ':' :: c :: rest5 =>
      if spaceClass c ∧ 10 ≤ (rest5.takeWhile dotClass).length
      then some (s.takeWhile upperAZ ++ '-' :: rest2.takeWhile digitClass) else none
    | _ => none
  | _ => none

/-- `true` iff the validator's matcher accepts the text. -/
def ticketAccept (s : List Char) : Bool :=
  (ticketPatternMatch s).isSome

/-- The claim's acceptance condition, by its words: the text starts with
one-or-more uppercase ASCII letters, a hyphen, one-or-more digits, a
literal colon followed by a single space character, then at least 10
further (arbitrary) characters.  Maximal-munch is again equivalent to
the declarative reading since `-` is not uppercase and `:` no digit. -/
def claimTicketAccept (s : List Char) : Bool :=
  if s.takeWhile upperAZ = [] then false else
  match s.dropWhile upperAZ with
  | '-' :: rest2 =>
    if rest2.takeWhile digitClass = [] then false else
    match rest2.dropWhile digitClass with
    | ':' :: ' ' :: rest5 => decide (10 ≤ rest5.length)
    | _ => false
  | _ => false

/-- Declarative form of what the code's matcher accepts: the text
decomposes as uppercase letters, `-`, digits, `:`, one `\s`-class
character, then at least ten non-newline characters (arbitrary trailing
content allowed). -/
def codeTicketSpec (s : List Char) : Prop :=
  ∃ p d c desc rest, s = p ++ '-' :: (d ++ ':' :: c :: (desc ++ rest)) ∧
    p ≠ [] ∧ (∀ x ∈ p, upperAZ x) ∧
    d ≠ [] ∧ (∀ x ∈ d, digitClass x) ∧
    spaceClass c ∧ desc.length = 10 ∧ (∀ x ∈ desc, dotClass x)

/-- One attempt to match the notes generator's id pattern `([A-Z]+-\d+)`
anchored at the start of `s` (from `generate_notes.py`, `id_pattern`).
On success returns the matched id and the remaining input.  As in
`ticketPatternMatch`, greediness cannot backtrack here, so maximal munch
is the regex's behaviour. -/
def matchIdAt (s : List Char) : Option (List Char × List Char) :=
  if s.takeWhile upperAZ = [] then none else
  match s.dropWhile upperAZ with
  | '-' :: rest2 =>
    if rest2.takeWhile digitClass = [] then none else
    some (s.takeWhile upperAZ ++ '-' :: rest2.takeWhile digitClass, rest2.dropWhile digitClass)
  | _ => none

/-- Fuel-indexed scan implementing `re.findall(id_pattern, subject)`:
leftmost non-overlapping matches, resuming after each match.  The fuel
only serves structural termination; `s.length` is always enough. -/
def findAllAux : Nat → List Char → List (List Char)
  | 0, _ => []
  | _ + 1, [] => []
  | fuel + 1, c :: t =>
    match matchIdAt (c :: t) with
    | some (m, rest) => m :: findAllAux fuel rest
    | none => findAllAux fuel t

/-- `re.findall(r'([A-Z]+-\d+)', s)`. -/
def findAllIds (s : List Char) : List (List Char) :=
  findAllAux s.length s

/-- Adding one element to a Python `set`, modelled as a duplicate-free
list in insertion order. -/
def setInsert (acc : List (List Char)) (x : List Char) : List (List Char) :=
  if x ∈ acc then acc else acc ++ [x]

/-- `for ticket in re.findall(...): linear_ids.add(ticket)` for one subject. -/
def addIdsOf (acc : List (List Char)) (subject : List Char) : List (List Char) :=
  (findAllIds subject).foldl setInsert acc

/-- The set `linear_ids` accumulated over all commit subjects. -/
def linearIdsOf (subjects : List (List Char)) : List (List Char) :=
  subjects.foldl addIdsOf []

/-- A string that is, in its entirety, of the shape uppercase letters,
hyphen, digits (the claim's notion of a substring matching the pattern). -/
def idShape (t : List Char) : Bool :=
  !(t.takeWhile upperAZ).isEmpty &&
  (match t.dropWhile upperAZ with
   | '-' :: r => !r.isEmpty && r.all digitClass
   | _ => false)

/-- `t` occurs as a contiguous substring of `s`. -/
def isSubstrOf (t s : List Char) : Bool :=
  (List.range (s.length + 1)).any fun i => (s.drop i).take t.length = t

/-- Ticket metadata returned by the batch fetch: one node of the GraphQL
`issues` query in `generate_notes.py` (`id`, `title`, `url`). -/
structure TicketMetadata where
  id : String
  title : String
  url : String

/-- `f"* **{issue['id']}**: {issue['title']} ([View]({issue['url']}))"`. -/
def summaryLineOf (issue : TicketMetadata) : String :=
  "* **" ++ issue.id ++ "**: " ++ issue.title ++ " ([View](" ++ issue.url ++ "))"

/-- The `summary_lines` list built from the fetched nodes. -/
def summaryLinesOf (nodes : List TicketMetadata) : List String :=
  nodes.map summaryLineOf

/-- Code-point comparison of characters, as Python compares string
elements. -/
def charLtB (c d : Char) : Bool :=
  c.toNat < d.toNat

/-- Lexicographic code-point comparison of character lists: Python's
`<` on strings. -/
def strLtCore : List Char → List Char → Bool
  | [], [] => false
  | [], _ :: _ => true
  | _ :: _, [] => false
  | c :: t, d :: u => if charLtB c d then true else if charLtB d c then false else strLtCore t u

/-- Python's `<=` on strings. -/
def strLeB (a b : String) : Bool :=
  !strLtCore b.data a.data

/-- Ascending insertion w.r.t. `strLeB`. -/
def orderedInsertPy (x : String) : List String → List String
  | [] => [x]
  | y :: t => if strLeB x y then x :: y :: t else y :: orderedInsertPy x t

/-- Python's `sorted` on a list of (distinct) strings: the ascending
ordering by code points, realised by insertion sort. -/
def sortedPy (l : List String) : List String :=
  l.foldr orderedInsertPy []

/-- The degraded summary emitted when `summary_lines` is empty but ids
were referenced: warning, then one `* <id>` line per id in `sorted`
order. -/
def fallbackListing (linear_ids : List String) : String :=
  "⚠️ **Warning:** Could not fetch ticket titles (Check API Key or Logs).\n\n" ++
  "**Referenced Tickets:**\n" ++
  String.join ((sortedPy linear_ids).map (fun tid => "* " ++ tid ++ "\n"))

/-- The content of the `## 📝 Summary (Linear Tickets)` section
(`generate_notes.py`, the `if summary_lines / elif linear_ids / else`
chain). -/
def summaryContent (linear_ids : List String) (summary_lines : List String) : String :=
  if summary_lines ≠ [] then String.intercalate "\n" summary_lines
  else if linear_ids ≠ [] then fallbackListing linear_ids
  else "No Linear tickets referenced."

/-- Characters other than the `"|"` separator. -/
def notPipe (c : Char) : Bool :=
  c != '|'

/-- Python's `line.split("|", 2)`: at most two splits, the third part
keeps any further separators. -/
def splitPipe2 (line : List Char) : List (List Char) :=
  match line.dropWhile notPipe with
  | '|' :: rest =>
    match rest.dropWhile notPipe with
    | '|' :: rest2 => [line.takeWhile notPipe, rest.takeWhile notPipe, rest2]
    | _ => [line.takeWhile notPipe, rest]
  | _ => [line]

/-- One iteration of the commit loop in `generate_notes.py`: skip the
line unless it contains `"|"` and splits into three parts
(`hash_id, author, subject`). -/
def parseCommitLine (line : List Char) : Option (List Char × List Char × List Char) :=
  if '|' ∉ line then none
  else match splitPipe2 line with
    | [h, a, s] => some (h, a, s)
    | _ => none

/-- `f"* {subject} ({hash_id}) - @{author}"`. -/
def changeLogLineOf (hash_id author subject : List Char) : List Char :=
  "* ".data ++ subject ++ " (".data ++ hash_id ++ ") - @".data ++ author

/-- The commit loop: builds `change_log_lines` and `linear_ids` in one
left-to-right pass. -/
def buildLogAndIds (commits : List (List Char)) : List (List Char) × List (List Char) :=
  commits.foldl
    (fun acc line =>
      match parseCommitLine line with
      | none => acc
      | some (h, a, s) => (acc.1 ++ [changeLogLineOf h a s], addIdsOf acc.2 s))
    ([], [])

/-- Python `str.replace` specialised to a single-character pattern (the
only uses in the source are `replace('T', ' ')` and
`replace('Z', ' UTC')`): every occurrence is replaced. -/
def replaceChar (s : List Char) (old : Char) (new : List Char) : List Char :=
  match s with
  | [] => []
  | c :: t => if c = old then new ++ replaceChar t old new else c :: replaceChar t old new

/-- A UTC wall-clock instant as used by `datetime.utcnow()`. -/
structure UtcTime where
  year : Nat
  month : Nat
  day : Nat
  hour : Nat
  minute : Nat
  second : Nat

/-- Zero-padding to two digits, as in `strftime("%m")` etc. -/
def pad2 (n : Nat) : String :=
  if n < 10 then "0" ++ toString n else toString n

/-- Zero-padding to four digits, as in `strftime("%Y")`. -/
def pad4 (n : Nat) : String :=
  if n < 10 then "000" ++ toString n
  else if n < 100 then "00" ++ toString n
  else if n < 1000 then "0" ++ toString n
  else toString n

/-- `datetime.strftime("%Y-%m-%d %H:%M:%S UTC")`. -/
def strftimeUTC (t : UtcTime) : String :=
  pad4 t.year ++ "-" ++ pad2 t.month ++ "-" ++ pad2 t.day ++ " " ++
  pad2 t.hour ++ ":" ++ pad2 t.minute ++ ":" ++ pad2 t.second ++ " UTC"

/-- The `release_time` computation of `generate_notes.py`: default is
the current UTC time; a truthy `created_at` string from the release
event payload (absent payload field modelled as `none`) overrides it
via `raw_date.replace('T', ' ').replace('Z', ' UTC')`. -/
def releaseTimeOf (now : UtcTime) (raw_date : Option String) : String :=
  match raw_date with
  | some d =>
    if d ≠ "" then (replaceChar (replaceChar d.data 'T' " ".data) 'Z' " UTC".data).asString
    else strftimeUTC now
  | none => strftimeUTC now

/-- A payload timestamp of the shape `YYYY-MM-DDTHH:MM:SSZ`. -/
def isoTimestamp (y1 y2 y3 y4 mo1 mo2 d1 d2 h1 h2 mi1 mi2 s1 s2 : Char) : List Char :=
  [y1, y2, y3, y4, '-', mo1, mo2, '-', d1, d2, 'T', h1, h2, ':', mi1, mi2, ':', s1, s2, 'Z']

/-- Observable actions of the notes generator's delivery phase
(steps 7 and 8 of `generate_notes.py`). -/
inductive GEvent where
  | fileWrite (name : String) (body : String)
  | fileWriteError
  | getRelease (tag : String)
  | patchRelease (release_id : Nat) (body : String)
  | exited (code : Nat)
deriving DecidableEq

/-- Steps 7 and 8 of `generate_notes.py` as an event trace.  `writeOk`
is whether the local `open/write` succeeds; `lookup` is the outcome of
`GET /releases/tags/<tag>` (the release id on success); `patch` the
outcome of `PATCH /releases/<id>`.  Any lookup or patch exception leads
to `sys.exit(1)`; the dry run prints and exits 0 before any request;
falling off the end of `main` exits 0. -/
def deliveryPhase (markdown_body current_tag : String) (is_dry_run writeOk : Bool)
    (lookup : Except Unit Nat) (patch : Except Unit Unit) : List GEvent :=
  (if writeOk then [GEvent.fileWrite "release_notes.md" markdown_body]
   else [GEvent.fileWriteError]) ++
  (if is_dry_run then [GEvent.exited 0]
   else GEvent.getRelease current_tag ::
     match lookup with
     | Except.error _ => [GEvent.exited 1]
     | Except.ok release_id =>
       GEvent.patchRelease release_id markdown_body ::
       match patch with
       | Except.error _ => [GEvent.exited 1]
       | Except.ok _ => [GEvent.exited 0])

/-- The process exit code carried by a trace (last `exited` event). -/
def gExitCode (evs : List GEvent) : Option Nat :=
  evs.foldl (fun acc e => match e with | GEvent.exited c => some c | _ => acc) none

/-- The content of `release_notes.md` on disk after a trace (writes set
it; nothing deletes it). -/
def diskAfter (evs : List GEvent) : Option String :=
  evs.foldl (fun acc e => match e with | GEvent.fileWrite _ b => some b | _ => acc) none

/-- Remote (HTTP) actions of the delivery phase. -/
def isRemoteEvent : GEvent → Bool
  | GEvent.getRelease _ => true
  | GEvent.patchRelease _ _ => true
  | _ => false

/-- JSON values as decoded by `json.loads`, to the extent the validator
inspects them. -/
inductive PyVal where
  | null
  | bool (b : Bool)
  | num (n : Int)
  | str (s : String)
  | list (items : List PyVal)
  | dict (fields : List (String × PyVal))

/-- Python truthiness on decoded JSON values. -/
def truthy : PyVal → Bool
  | PyVal.null => false
  | PyVal.bool b => b
  | PyVal.num n => n != 0
  | PyVal.str s => s != ""
  | PyVal.list items => !items.isEmpty
  | PyVal.dict fields => !fields.isEmpty

/-- Whether a value is a JSON object (a Python `dict`). -/
def isDict : PyVal → Bool
  | PyVal.dict _ => true
  | _ => false

/-- Whether a value is JSON `null` (Python `None`). -/
def isNull : PyVal → Bool
  | PyVal.null => true
  | _ => false

/-- Key lookup in a decoded JSON object (`dict.get(k)`: `None` when the
key is absent; later duplicates win, as in `json.loads`). -/
def lookupField (fields : List (String × PyVal)) (k : String) : PyVal :=
  fields.foldl (fun acc kv => if kv.1 = k then kv.2 else acc) PyVal.null

/-- `v.get(k)` when `v` is known to be a `dict`, `None`-defaulting;
non-objects give `None` (used only to state shapes, not in the model of
the code, which raises instead: see `pyGetAttr`). -/
def pyField (v : PyVal) (k : String) : PyVal :=
  match v with
  | PyVal.dict fields => lookupField fields k
  | _ => PyVal.null

/-- `v.get(k)` as executed: on a non-`dict` Python raises an
`AttributeError` (text `exn`, abstracted), which the surrounding
`except Exception` turns into the connection-error path. -/
def pyGetAttr (exn : String) (v : PyVal) (k : String) : Except String PyVal :=
  match v with
  | PyVal.dict fields => Except.ok (lookupField fields k)
  | _ => Except.error exn

/-- Observable actions of the ticket validator. -/
inductive VEvent where
  | patternCheck (text : String)
  | ghComment (msg : String)
  | linearQuery (ticket_id : String)
  | exited (code : Nat)
deriving DecidableEq

/-- The validator's environment-sourced configuration
(`os.environ.get(...)`; absent variables are `none`, except the three
texts, which default to `''` at their use sites). -/
structure ValidatorEnv where
  event_name : Option String
  commit_msg : String
  pr_body : String
  pr_title : String
  linear_api_key : Option String
  github_repo : Option String
  pr_number : Option String
  github_token : Option String

/-- Truthiness of an optional environment string (`None` and `''` are
falsy). -/
def optTruthy : Option String → Bool
  | some s => s != ""
  | none => false

/-- `fail_with_comment` of `validate_ticket.py`: prints the failure,
posts a PR comment when in a PR context with full credentials
(best-effort; its own failure changes nothing observable here), and
exits 1. -/
def fail_with_comment (env : ValidatorEnv) (message : String) : List VEvent :=
  (if env.event_name = some "pull_request" ∧ optTruthy env.github_repo ∧
      optTruthy env.pr_number ∧ optTruthy env.github_token
   then [VEvent.ghComment message] else []) ++ [VEvent.exited 1]

/-- The pattern-mismatch failure message. -/
def invalidFormatMsg (check_source text_to_check : String) : String :=
  "The format in the **" ++ check_source ++ "** is invalid.\n\n**Found:** \"" ++
  text_to_check ++ "\"\n**Expected:** \"ENG-123: Detailed description here...\"\n\n" ++
  "(Must start with ID, have a colon, and at least 10 chars of description)"

/-- The API/auth failure message (`dump` is `json.dumps(resp_data)`,
abstracted). -/
def authErrorMsg (dump : String) : String :=
  "Linear API Error or Auth Failed.\nResponse: " ++ dump

/-- The ticket-not-found failure message. -/
def notFoundMsg (ticket_id : String) : String :=
  "Ticket **" ++ ticket_id ++ "** was not found in Linear. Please check the ID."

/-- The connection failure message (`e` is the exception text). -/
def connErrorMsg (e : String) : String :=
  "Error connecting to Linear API: " ++ e

/-- Lines 112-130 of `validate_ticket.py`: processing of the response
to the single-ticket existence query.  `dumps` abstracts `json.dumps`,
`exn` the text of an `AttributeError` raised by `.get` on a non-object,
`resp` the outcome of `urlopen` + `json.loads` (exception text on
error).  `sys.exit` inside `fail_with_comment` is a `SystemExit` and
escapes the `except Exception` handler. -/
def linearRespEvents (dumps : PyVal → String) (exn : String) (env : ValidatorEnv)
    (ticket_id : String) (resp : Except String PyVal) : List VEvent :=
  match resp with
  | Except.error e => fail_with_comment env (connErrorMsg e)
  | Except.ok resp_data =>
    match pyGetAttr exn resp_data "data" with
    | Except.error e => fail_with_comment env (connErrorMsg e)
    | Except.ok data_obj =>
      if !truthy data_obj then fail_with_comment env (authErrorMsg (dumps resp_data))
      else
        match pyGetAttr exn data_obj "issue" with
        | Except.error e => fail_with_comment env (connErrorMsg e)
        | Except.ok issue =>
          if !truthy issue then fail_with_comment env (notFoundMsg ticket_id)
          else
            match pyGetAttr exn issue "id" with
            | Except.error e => fail_with_comment env (connErrorMsg e)
            | Except.ok idv =>
              if truthy idv then [VEvent.exited 0]
              else fail_with_comment env (notFoundMsg ticket_id)

/-- Steps 2 and 3 of `validate_ticket.py`: pattern check on the
resolved text, then (key present) the Linear query. -/
def validatorCheck (dumps : PyVal → String) (exn : String) (env : ValidatorEnv)
    (text_to_check check_source : String) (resp : Except String PyVal) : List VEvent :=
  VEvent.patternCheck text_to_check ::
  match ticketPatternMatch text_to_check.data with
  | none => fail_with_comment env (invalidFormatMsg check_source text_to_check)
  | some ticket_id =>
    if !optTruthy env.linear_api_key then
      fail_with_comment env "LINEAR_API_KEY input is missing."
    else
      VEvent.linearQuery ticket_id.asString ::
      linearRespEvents dumps exn env ticket_id.asString resp

/-- Line-boundary characters of Python's `str.splitlines`. -/
def isLineBreak (c : Char) : Bool :=
  c == '\n' || c == '\r' || c == '\u000b' || c == '\u000c' || c == '\u001c' ||
  c == '\u001d' || c == '\u001e' || c == '\u0085' || c == '\u2028' || c == '\u2029'

/-- `s.splitlines()[0]` for nonempty `s`: the characters before the
first line boundary. -/
def firstLineOf (s : String) : String :=
  (s.data.takeWhile (fun c => !isLineBreak c)).asString

/-- `main` of `validate_ticket.py` as an event trace: text-source
resolution (step 1), then `validatorCheck`.  A non-`push`,
non-`pull_request` event leaves `text_to_check` and `check_source`
empty. -/
def validatorRun (dumps : PyVal → String) (exn : String) (env : ValidatorEnv)
    (resp : Except String PyVal) : List VEvent :=
  if env.event_name = some "push" then
    if "Merge pull request".data.isPrefixOf env.commit_msg.data ∨
        "Merge branch".data.isPrefixOf env.commit_msg.data
    then [VEvent.exited 0]
    else validatorCheck dumps exn env env.commit_msg "Commit Message" resp
  else if env.event_name = some "pull_request" then
    if env.pr_body = "" ∨ env.pr_body = "None" then
      if env.pr_title = "" then
        fail_with_comment env "PR Description is empty and PR Title is missing/empty."
      else validatorCheck dumps exn env env.pr_title "PR Title" resp
    else validatorCheck dumps exn env (firstLineOf env.pr_body)
      "First line of PR Description" resp
  else validatorCheck dumps exn env "" "" resp

/-- The validator's exit code (last `exited` event of the trace). -/
def vExitCode (evs : List VEvent) : Option Nat :=
  evs.foldl (fun acc e => match e with | VEvent.exited c => some c | _ => acc) none

/-- The success shape the code actually requires of the response: a
decoded object whose `data` field is a truthy object, whose `issue`
field is in turn a truthy object with a truthy `id`. -/
def respSuccessShape (resp : Except String PyVal) : Prop :=
  ∃ r, resp = Except.ok r ∧ isDict r = true ∧
    truthy (pyField r "data") = true ∧ isDict (pyField r "data") = true ∧
    truthy (pyField (pyField r "data") "issue") = true ∧
    isDict (pyField (pyField r "data") "issue") = true ∧
    truthy (pyField (pyField (pyField r "data") "issue") "id") = true

/-- The claim's success condition, by its words: non-null `data`,
non-null `issue`, non-null `id` (null-ness only, not truthiness). -/
def claimRespSuccess (resp : Except String PyVal) : Prop :=
  ∃ r, resp = Except.ok r ∧ isNull (pyField r "data") = false ∧
    isNull (pyField (pyField r "data") "issue") = false ∧
    isNull (pyField (pyField (pyField r "data") "issue") "id") = false

/-- `takeWhile` stops exactly at the first failing element. -/
theorem takeWhile_all_append {q : Char → Bool} (p : List Char) (c : Char) (t : List Char)
    (hp : ∀ x ∈ p, q x = true) (hc : q c = false) :
    (p ++ c :: t).takeWhile q = p ∧ (p ++ c :: t).dropWhile q = c :: t := by
  induction p with
  | nil => simp [hc]
  | cons a p ih =>
    have ha : q a = true := hp a (by simp)
    obtain ⟨h1, h2⟩ := ih (fun x hx => hp x (by simp [hx]))
    constructor
    · simpa [List.takeWhile_cons_of_pos ha] using h1
    · simpa [List.dropWhile_cons_of_pos ha] using h2

/-- A block of passing elements bounds the length of `takeWhile` below. -/
theorem length_le_takeWhile_append {q : Char → Bool} (l1 l2 : List Char)
    (h : ∀ x ∈ l1, q x = true) : l1.length ≤ ((l1 ++ l2).takeWhile q).length := by
  induction l1 with
  | nil => simp
  | cons a t ih =>
    have ha : q a = true := h a (by simp)
    have := ih (fun x hx => h x (by simp [hx]))
    simpa [List.takeWhile_cons_of_pos ha] using Nat.succ_le_succ this

/-- C1 (amended): the validator's matcher accepts exactly the texts
that start with one-or-more uppercase ASCII letters, a hyphen,
one-or-more Unicode decimal digits (`\d`), a colon, one character of
Python's Unicode whitespace class `\s` (not only a space), then at
least ten characters none of which is a newline; acceptance is anchored
at the start only and trailing content is ignored. -/
theorem C1_ticket_pattern (s : List Char) :
    ticketAccept s = true ↔ codeTicketSpec s := by
  constructor
  · intro h
    unfold ticketAccept ticketPatternMatch at h
    split at h
    · simp at h
    · rename_i hpre
      split at h
      · rename_i rest2 hdrop
        split at h
        · simp at h
        · rename_i hdig
          split at h
          · rename_i c rest5 hdrop2
            split at h
            · rename_i hcond
              obtain ⟨hsp, hlen⟩ := hcond
              have hs : s = s.takeWhile upperAZ ++ s.dropWhile upperAZ :=
                (List.takeWhile_append_dropWhile upperAZ s).symm
              have hr2 : rest2 = rest2.takeWhile digitClass ++ rest2.dropWhile digitClass :=
                (List.takeWhile_append_dropWhile digitClass rest2).symm
              set pre := s.takeWhile upperAZ with hpredef
              set digs := rest2.takeWhile digitClass with hdigsdef
              rw [hdrop] at hs
              rw [hdrop2] at hr2
              rw [hr2] at hs
              have hsplit : rest5.takeWhile dotClass ++ rest5.dropWhile dotClass = rest5 :=
                List.takeWhile_append_dropWhile dotClass rest5
              have hlensum := congrArg List.length hsplit
              rw [List.length_append] at hlensum
              have hlen5 : 10 ≤ rest5.length := by omega
              have h10 : (rest5.takeWhile dotClass).take 10 = rest5.take 10 := by
                have hcg := congrArg (List.take 10) hsplit
                rwa [List.take_append_eq_append_take, Nat.sub_eq_zero_of_le hlen,
                  List.take_zero, List.append_nil] at hcg
              refine ⟨pre, digs, c, rest5.take 10, rest5.drop 10, ?_, hpre, ?_, hdig, ?_,
                hsp, ?_, ?_⟩
              · rw [List.take_append_drop]
                exact hs
              · exact fun x hx => List.mem_takeWhile_imp hx
              · exact fun x hx => List.mem_takeWhile_imp hx
              · simpa using Nat.min_eq_left hlen5
              · intro x hx
                rw [← h10] at hx
                exact List.mem_takeWhile_imp (List.take_subset 10 _ hx)
            · simp at h
          · simp at h
      · simp at h
  · rintro ⟨p, d, c, desc, rest, hse, hp, hup, hd, hdig, hsp, hdl, hdot⟩
    have hupd : upperAZ '-' = false := by decide
    have hdigc : digitClass ':' = false := by decide
    obtain ⟨ht1, ht2⟩ := takeWhile_all_append p '-' (d ++ ':' :: c :: (desc ++ rest)) hup hupd
    obtain ⟨ht3, ht4⟩ := takeWhile_all_append d ':' (c :: (desc ++ rest)) hdig hdigc
    have hlen : 10 ≤ ((desc ++ rest).takeWhile dotClass).length := by
      have := length_le_takeWhile_append desc rest hdot
      omega
    unfold ticketAccept ticketPatternMatch
    rw [hse, ht1, ht2]
    simp [hp, hd, hsp, hlen, ht3, ht4]

/-- A successful anchored match consumes at least one character. -/
theorem matchIdAt_some_lt {s m rest : List Char} (h : matchIdAt s = some (m, rest)) :
    rest.length < s.length := by
  unfold matchIdAt at h
  split at h
  · exact absurd h (by simp)
  · rename_i hpre
    split at h
    · rename_i rest2 hdrop
      split at h
      · exact absurd h (by simp)
      · rename_i hdig
        have hrest : rest = rest2.dropWhile digitClass := by
          injection h with h'
          injection h' with h1 h2
          exact h2.symm
        have hs := congrArg List.length (List.takeWhile_append_dropWhile upperAZ s)
        have hr2 := congrArg List.length (List.takeWhile_append_dropWhile digitClass rest2)
        have hd := congrArg List.length hdrop
        rw [List.length_append] at hs hr2
        simp only [List.length_cons] at hd
        subst hrest
        omega
    · exact absurd h (by simp)

/-- The fuel in `findAllAux` is irrelevant once it covers the input length. -/
theorem findAllAux_fuel {fuel1 fuel2 : Nat} {s : List Char}
    (h1 : s.length ≤ fuel1) (h2 : s.length ≤ fuel2) :
    findAllAux fuel1 s = findAllAux fuel2 s := by
  induction fuel1 generalizing fuel2 s with
  | zero =>
    have : s = [] := List.eq_nil_of_length_eq_zero (Nat.le_zero.mp h1)
    subst this
    cases fuel2 <;> rfl
  | succ fuel ih =>
    cases s with
    | nil => cases fuel2 <;> rfl
    | cons c t =>
      cases fuel2 with
      | zero => simp at h2
      | succ fuel2' =>
        simp only [List.length_cons] at h1 h2
        cases hm : matchIdAt (c :: t) with
        | some p =>
          obtain ⟨m, rest⟩ := p
          have hlt := matchIdAt_some_lt hm
          simp only [List.length_cons] at hlt
          simp only [findAllAux, hm]
          rw [ih (show rest.length ≤ fuel by omega) (show rest.length ≤ fuel2' by omega)]
        | none =>
          simp only [findAllAux, hm]
          exact ih (by omega) (by omega)

/-- Unfolding equation: successful match at the head. -/
theorem findAllIds_cons_some {c : Char} {t m rest : List Char}
    (h : matchIdAt (c :: t) = some (m, rest)) :
    findAllIds (c :: t) = m :: findAllIds rest := by
  have hlt := matchIdAt_some_lt h
  simp only [List.length_cons] at hlt
  unfold findAllIds
  simp only [List.length_cons, findAllAux, h]
  rw [findAllAux_fuel (show rest.length ≤ t.length by omega) (Nat.le_refl _)]

/-- Unfolding equation: no match at the head, skip one character. -/
theorem findAllIds_cons_none {c : Char} {t : List Char}
    (h : matchIdAt (c :: t) = none) :
    findAllIds (c :: t) = findAllIds t := by
  unfold findAllIds
  simp only [List.length_cons, findAllAux, h]

/-- Membership in a Python-set insertion. -/
theorem mem_setInsert {acc : List (List Char)} {x y : List Char} :
    y ∈ setInsert acc x ↔ y ∈ acc ∨ y = x := by
  unfold setInsert
  split
  · rename_i hx
    constructor
    · exact fun h => Or.inl h
    · rintro (h | rfl)
      · exact h
      · exact hx
  · simp

/-- Set insertion preserves freedom from duplicates. -/
theorem nodup_setInsert {acc : List (List Char)} {x : List Char} (h : acc.Nodup) :
    (setInsert acc x).Nodup := by
  unfold setInsert
  split
  · exact h
  · rename_i hx
    simpa [List.nodup_append, h] using hx

/-- Membership after folding a list of ids into a set. -/
theorem mem_foldl_setInsert {l acc : List (List Char)} {y : List Char} :
    y ∈ l.foldl setInsert acc ↔ y ∈ acc ∨ y ∈ l := by
  induction l generalizing acc with
  | nil => simp
  | cons a t ih =>
    simp only [List.foldl_cons, ih, mem_setInsert, List.mem_cons]
    tauto

/-- Folding ids into a duplicate-free set keeps it duplicate-free. -/
theorem nodup_foldl_setInsert {l acc : List (List Char)} (h : acc.Nodup) :
    (l.foldl setInsert acc).Nodup := by
  induction l generalizing acc with
  | nil => exact h
  | cons a t ih => exact ih (nodup_setInsert h)

/-- Membership in the accumulated ticket set. -/
theorem mem_foldl_addIdsOf {subjects : List (List Char)} {acc : List (List Char)}
    {y : List Char} :
    y ∈ subjects.foldl addIdsOf acc ↔ y ∈ acc ∨ ∃ s ∈ subjects, y ∈ findAllIds s := by
  induction subjects generalizing acc with
  | nil => simp
  | cons a t ih =>
    simp only [List.foldl_cons, ih, addIdsOf, mem_foldl_setInsert, List.mem_cons]
    constructor
    · rintro ((h | h) | ⟨s, hs, hy⟩)
      · exact Or.inl h
      · exact Or.inr ⟨a, Or.inl rfl, h⟩
      · exact Or.inr ⟨s, Or.inr hs, hy⟩
    · rintro (h | ⟨s, (rfl | hs), hy⟩)
      · exact Or.inl (Or.inl h)
      · exact Or.inl (Or.inr hy)
      · exact Or.inr ⟨s, hs, hy⟩

/-- Folding subjects into a duplicate-free set keeps it duplicate-free. -/
theorem nodup_foldl_addIdsOf {subjects acc : List (List Char)} (h : acc.Nodup) :
    (subjects.foldl addIdsOf acc).Nodup := by
  induction subjects generalizing acc with
  | nil => exact h
  | cons a t ih => exact ih (nodup_foldl_setInsert h)

/-- The commit loop's fold, for an arbitrary starting accumulator. -/
theorem buildLogAndIds_foldl (commits : List (List Char))
    (acc : List (List Char) × List (List Char)) :
    commits.foldl
      (fun acc line =>
        match parseCommitLine line with
        | none => acc
        | some (h, a, s) => (acc.1 ++ [changeLogLineOf h a s], addIdsOf acc.2 s))
      acc =
    (acc.1 ++ (commits.filterMap parseCommitLine).map
        (fun p => changeLogLineOf p.1 p.2.1 p.2.2),
      ((commits.filterMap parseCommitLine).map (fun p => p.2.2)).foldl addIdsOf acc.2) := by
  induction commits generalizing acc with
  | nil => simp
  | cons line t ih =>
    cases hp : parseCommitLine line with
    | none => simp [hp, ih, List.filterMap_cons]
    | some p =>
      obtain ⟨h, a, s⟩ := p
      simp [hp, ih, List.filterMap_cons]

/-- C7 (counterexample): read literally, the claim's "deduplicated union
of all substrings of the commit subjects matching uppercase-letters
hyphen digits" is false: `"G-1"` is such a substring of
`"ENG-1: fix a"`, yet extraction (which takes the leftmost
non-overlapping greedy matches) does not produce it. -/
theorem C7_counterexample :
    isSubstrOf "G-1".data "ENG-1: fix a".data = true ∧
    idShape "G-1".data = true ∧
    "G-1".data ∉ linearIdsOf ["ENG-1: fix a".data] := by
  decide

/-- C7 (amended): the set of ticket IDs extracted by the notes generator
has exactly the ids found in some subject by the left-to-right greedy
scan of `[A-Z]+-\d+` (`re.findall`), is duplicate-free, is independent
of commit order, and on the claim's example subjects is exactly
`ENG-1, ENG-2`. -/
theorem C7_extracted_ids :
    (∀ subjects t, t ∈ linearIdsOf subjects ↔ ∃ s ∈ subjects, t ∈ findAllIds s) ∧
    (∀ subjects, (linearIdsOf subjects).Nodup) ∧
    (∀ subjects subjects', subjects.Perm subjects' →
      ∀ t, t ∈ linearIdsOf subjects ↔ t ∈ linearIdsOf subjects') ∧
    linearIdsOf ["ENG-1: fix a".data, "Unrelated".data, "ENG-1: fix a".data,
      "ENG-2: fix b".data] = ["ENG-1".data, "ENG-2".data] := by
  have hmem : ∀ (subjects : List (List Char)) (t : List Char),
      t ∈ linearIdsOf subjects ↔ ∃ s ∈ subjects, t ∈ findAllIds s := by
    intro subjects t
    unfold linearIdsOf
    rw [mem_foldl_addIdsOf]
    simp
  refine ⟨hmem, ?_, ?_, ?_⟩
  · intro subjects
    exact nodup_foldl_addIdsOf List.nodup_nil
  · intro subjects subjects' hp t
    rw [hmem, hmem]
    constructor
    · rintro ⟨s, hs, hy⟩
      exact ⟨s, hp.mem_iff.mp hs, hy⟩
    · rintro ⟨s, hs, hy⟩
      exact ⟨s, hp.mem_iff.mpr hs, hy⟩
  · decide

/-- C7 (witness): the order-independence component applied to a
concrete transposition. -/
theorem C7_witness :
    "ENG-2".data ∈ linearIdsOf ["ENG-2: fix b".data, "Unrelated".data] ↔
      "ENG-2".data ∈ linearIdsOf ["Unrelated".data, "ENG-2: fix b".data] :=
  C7_extracted_ids.2.2.1 _ _ (by decide) _

/-- C10 (confirmed): a git-log line with no `|` or fewer than three
`|`-separated fields is skipped (no change-log line, no ticket ids),
and each well-formed `hash|author|subject` line contributes exactly one
change-log line; the accumulated id set comes exactly from the parsed
subjects. -/
theorem C10_commit_line_filter :
    (∀ line, parseCommitLine line = none ↔
      ('|' ∉ line ∨ (splitPipe2 line).length < 3)) ∧
    (∀ commits, (buildLogAndIds commits).1 =
      (commits.filterMap parseCommitLine).map
        (fun p => changeLogLineOf p.1 p.2.1 p.2.2)) ∧
    (∀ commits, (buildLogAndIds commits).2 =
      linearIdsOf ((commits.filterMap parseCommitLine).map (fun p => p.2.2))) := by
  refine ⟨?_, ?_, ?_⟩
  · intro line
    have hlen3 : (splitPipe2 line).length ≤ 3 := by
      unfold splitPipe2
      split
      · split
        · simp
        · simp
      · simp
    unfold parseCommitLine
    by_cases hp : '|' ∈ line
    · simp only [hp, not_true_eq_false, false_or, if_neg (not_not_intro hp)]
      rcases hsp : splitPipe2 line with _ | ⟨a, _ | ⟨b, _ | ⟨c, _ | ⟨d, l⟩⟩⟩⟩
      · simp
      · simp
      · simp
      · simp
      · rw [hsp] at hlen3
        simp only [List.length_cons] at hlen3
        omega
    · simp [hp]
  · intro commits
    unfold buildLogAndIds
    rw [buildLogAndIds_foldl]
    simp
  · intro commits
    unfold buildLogAndIds linearIdsOf
    rw [buildLogAndIds_foldl]

/-- Code-point comparison is asymmetric. -/
theorem charLtB_asymm {c d : Char} (h : charLtB c d = true) : charLtB d c = false := by
  simp only [charLtB, decide_eq_true_eq] at h
  simp only [charLtB, decide_eq_false_iff_not]
  omega

/-- Characters with equal code points are equal. -/
theorem char_eq_of_not_ltB {c d : Char} (h1 : charLtB c d = false)
    (h2 : charLtB d c = false) : c = d := by
  simp only [charLtB, decide_eq_false_iff_not] at h1 h2
  have h : c.toNat = d.toNat := by omega
  have hc := Char.ofNat_toNat c
  have hd := Char.ofNat_toNat d
  rw [← hc, ← hd, h]

/-- Lexicographic comparison is asymmetric. -/
theorem strLtCore_asymm {x y : List Char} (h : strLtCore x y = true) :
    strLtCore y x = false := by
  induction x generalizing y with
  | nil =>
    cases y with
    | nil => simp [strLtCore] at h
    | cons d u => simp [strLtCore]
  | cons c t ih =>
    cases y with
    | nil => simp [strLtCore] at h
    | cons d u =>
      simp only [strLtCore] at h ⊢
      by_cases h1 : charLtB c d = true
      · rw [charLtB_asymm h1]
        simp [h1]
      · rw [if_neg (by simpa using h1)] at h
        by_cases h2 : charLtB d c = true
        · rw [if_pos h2] at h
          exact absurd h (by simp)
        · rw [if_neg (by simpa using h2)] at h
          rw [if_neg (by simpa using h2), if_neg (by simpa using h1)]
          exact ih h

/-- Lists that compare unsortable in both directions are equal. -/
theorem strLtCore_connex {x y : List Char} (h1 : strLtCore x y = false)
    (h2 : strLtCore y x = false) : x = y := by
  induction x generalizing y with
  | nil =>
    cases y with
    | nil => rfl
    | cons d u => simp [strLtCore] at h1
  | cons c t ih =>
    cases y with
    | nil => simp [strLtCore] at h2
    | cons d u =>
      simp only [strLtCore] at h1 h2
      by_cases hc1 : charLtB c d = true
      · rw [if_pos hc1] at h1
        exact absurd h1 (by simp)
      · by_cases hc2 : charLtB d c = true
        · rw [if_pos hc2] at h2
          exact absurd h2 (by simp)
        · rw [if_neg (by simpa using hc1), if_neg (by simpa using hc2)] at h1
          rw [if_neg (by simpa using hc2), if_neg (by simpa using hc1)] at h2
          have hcd := char_eq_of_not_ltB (by simpa using hc1) (by simpa using hc2)
          rw [hcd, ih h1 h2]

/-- Lexicographic comparison is transitive. -/
theorem strLtCore_trans {x y z : List Char} (h1 : strLtCore x y = true)
    (h2 : strLtCore y z = true) : strLtCore x z = true := by
  induction x generalizing y z with
  | nil =>
    cases y with
    | nil => simp [strLtCore] at h1
    | cons d u =>
      cases z with
      | nil => simp [strLtCore] at h2
      | cons e v => simp [strLtCore]
  | cons c t ih =>
    cases y with
    | nil => simp [strLtCore] at h1
    | cons d u =>
      cases z with
      | nil => simp [strLtCore] at h2
      | cons e v =>
        simp only [strLtCore] at h1 h2 ⊢
        by_cases hcd : charLtB c d = true
        · by_cases hde : charLtB d e = true
          · simp only [charLtB, decide_eq_true_eq] at hcd hde
            rw [if_pos (by simp only [charLtB, decide_eq_true_eq]; omega)]
          · rw [if_neg (by simpa using hde)] at h2
            by_cases hed : charLtB e d = true
            · rw [if_pos hed] at h2
              exact absurd h2 (by simp)
            · have hde2 := char_eq_of_not_ltB (by simpa using hde) (by simpa using hed)
              rw [← hde2]
              rw [if_pos hcd]
        · rw [if_neg (by simpa using hcd)] at h1
          by_cases hdc : charLtB d c = true
          · rw [if_pos hdc] at h1
            exact absurd h1 (by simp)
          · rw [if_neg (by simpa using hdc)] at h1
            have hcd2 := char_eq_of_not_ltB (by simpa using hcd) (by simpa using hdc)
            by_cases hde : charLtB d e = true
            · rw [hcd2, if_pos hde]
            · rw [if_neg (by simpa using hde)] at h2
              by_cases hed : charLtB e d = true
              · rw [if_pos hed] at h2
                exact absurd h2 (by simp)
              · rw [if_neg (by simpa using hed)] at h2
                rw [hcd2, if_neg (by simpa using hde), if_neg (by simpa using hed)]
                exact ih h1 h2

/-- `strLeB` is total. -/
theorem strLeB_total (a b : String) : strLeB a b = true ∨ strLeB b a = true := by
  unfold strLeB
  by_cases h : strLtCore b.data a.data = true
  · right
    rw [strLtCore_asymm h]
    rfl
  · left
    simp only [Bool.not_eq_true] at h
    rw [h]
    rfl

/-- `strLeB` is transitive. -/
theorem strLeB_trans {a b c : String} (h1 : strLeB a b = true) (h2 : strLeB b c = true) :
    strLeB a c = true := by
  unfold strLeB at h1 h2 ⊢
  simp only [Bool.not_eq_true'] at h1 h2 ⊢
  by_cases hbc : strLtCore b.data c.data = true
  · by_cases hca : strLtCore c.data a.data = true
    · have := strLtCore_trans hbc hca
      exact absurd this (by simp [h1])
    · simpa using hca
  · have hcb2 := strLtCore_connex h2 (by simpa using hbc)
    rw [hcb2]
    exact h1

/-- Membership in an ascending insertion. -/
theorem mem_orderedInsertPy {x z : String} {l : List String} :
    z ∈ orderedInsertPy x l ↔ z = x ∨ z ∈ l := by
  induction l with
  | nil => simp [orderedInsertPy]
  | cons y t ih =>
    unfold orderedInsertPy
    split
    · simp
    · simp only [List.mem_cons, ih]
      tauto

/-- Ascending insertion permutes the cons. -/
theorem perm_orderedInsertPy (x : String) (l : List String) :
    (orderedInsertPy x l).Perm (x :: l) := by
  induction l with
  | nil => exact List.Perm.refl _
  | cons y t ih =>
    unfold orderedInsertPy
    split
    · exact List.Perm.refl _
    · exact ((ih.cons y).trans (List.Perm.swap x y t))

/-- The insertion sort permutes its input. -/
theorem perm_sortedPy (l : List String) : (sortedPy l).Perm l := by
  induction l with
  | nil => exact List.Perm.refl _
  | cons y t ih =>
    unfold sortedPy at ih ⊢
    exact (perm_orderedInsertPy y (t.foldr orderedInsertPy [])).trans (ih.cons y)

/-- Ascending insertion preserves sortedness. -/
theorem sorted_orderedInsertPy {x : String} {l : List String}
    (h : List.Sorted (fun a b => strLeB a b = true) l) :
    List.Sorted (fun a b => strLeB a b = true) (orderedInsertPy x l) := by
  induction l with
  | nil => simp [orderedInsertPy]
  | cons y t ih =>
    rw [List.sorted_cons] at h
    obtain ⟨hy, ht⟩ := h
    unfold orderedInsertPy
    split
    · rename_i hxy
      rw [List.sorted_cons]
      refine ⟨?_, ?_⟩
      · intro b hb
        rcases List.mem_cons.mp hb with rfl | hb
        · exact hxy
        · exact strLeB_trans hxy (hy b hb)
      · rw [List.sorted_cons]
        exact ⟨hy, ht⟩
    · rename_i hxy
      rw [List.sorted_cons]
      refine ⟨?_, ih ht⟩
      intro b hb
      rcases mem_orderedInsertPy.mp hb with rfl | hb
      · rcases strLeB_total b y with h' | h'
        · exact absurd h' hxy
        · exact h'
      · exact hy b hb

/-- The insertion sort sorts ascending. -/
theorem sorted_sortedPy (l : List String) :
    List.Sorted (fun a b => strLeB a b = true) (sortedPy l) := by
  induction l with
  | nil => simp [sortedPy]
  | cons y t ih => exact sorted_orderedInsertPy ih

/-- C1 (counterexample): the claim's acceptance condition (single space
after the colon, any ten further characters) differs from the code's in
both directions: a tab — or a file-separator character `\x1c`, which
Python's Unicode `\s` also matches — after the colon is accepted by the
code but not by the claim, and a newline within the first ten
description characters is accepted by the claim but not by the code. -/
theorem C1_counterexample :
    ticketAccept "ENG-123:\t1234567890".data = true ∧
    claimTicketAccept "ENG-123:\t1234567890".data = false ∧
    ticketAccept "ENG-123:\x1c1234567890".data = true ∧
    claimTicketAccept "ENG-123:\x1c1234567890".data = false ∧
    claimTicketAccept "ENG-123: ab\ncdefghij".data = true ∧
    ticketAccept "ENG-123: ab\ncdefghij".data = false := by
  decide

/-- C2 (counterexample): on a partial metadata fetch (ids `ENG-1` and
`ENG-2` referenced, metadata returned only for `ENG-1`) the code emits
the fetched line, not the warning plus the bare sorted id list the
claim requires for partial results. -/
theorem C2_counterexample :
    summaryContent ["ENG-1", "ENG-2"] (summaryLinesOf [⟨"ENG-1", "Title A", "urlA"⟩]) =
      "* **ENG-1**: Title A ([View](urlA))" ∧
    summaryContent ["ENG-1", "ENG-2"] (summaryLinesOf [⟨"ENG-1", "Title A", "urlA"⟩]) ≠
      fallbackListing ["ENG-1", "ENG-2"] := by
  constructor
  · rfl
  · decide

/-- C2 (amended): if the fetch produced at least one summary line those
lines are emitted (even when results are partial); when ids were
referenced but no summary line was produced, the warning plus the bare
ascending list of all referenced ids is emitted; with no referenced
tickets the fixed message is emitted. -/
theorem C2_summary_section :
    (∀ (linear_ids : List String) (nodes : List TicketMetadata), nodes ≠ [] →
      summaryContent linear_ids (summaryLinesOf nodes) =
        String.intercalate "\n" (nodes.map summaryLineOf)) ∧
    (∀ linear_ids : List String, linear_ids ≠ [] →
      summaryContent linear_ids (summaryLinesOf []) =
        "⚠️ **Warning:** Could not fetch ticket titles (Check API Key or Logs).\n\n" ++
        "**Referenced Tickets:**\n" ++
        String.join ((sortedPy linear_ids).map (fun tid => "* " ++ tid ++ "\n")) ∧
      (sortedPy linear_ids).Perm linear_ids ∧
      List.Sorted (fun a b => strLeB a b = true) (sortedPy linear_ids)) ∧
    summaryContent [] (summaryLinesOf []) = "No Linear tickets referenced." := by
  refine ⟨?_, ?_, rfl⟩
  · intro ids nodes hn
    have h : summaryLinesOf nodes ≠ [] := by
      simpa [summaryLinesOf] using hn
    unfold summaryContent
    rw [if_pos h]
    rfl
  · intro ids hn
    refine ⟨?_, perm_sortedPy ids, sorted_sortedPy ids⟩
    unfold summaryContent
    rw [if_neg (by simp [summaryLinesOf]), if_pos hn]
    rfl

/-- C2 (witness): the degraded branch at two concrete unsorted ids. -/
theorem C2_witness :
    summaryContent ["ENG-2", "ENG-1"] (summaryLinesOf []) =
      "⚠️ **Warning:** Could not fetch ticket titles (Check API Key or Logs).\n\n" ++
      "**Referenced Tickets:**\n" ++
      String.join ((sortedPy ["ENG-2", "ENG-1"]).map (fun tid => "* " ++ tid ++ "\n")) ∧
    (sortedPy ["ENG-2", "ENG-1"]).Perm ["ENG-2", "ENG-1"] ∧
    List.Sorted (fun a b => strLeB a b = true) (sortedPy ["ENG-2", "ENG-1"]) :=
  C2_summary_section.2.1 ["ENG-2", "ENG-1"] (by decide)

/-- Digits are distinct from any non-digit character. -/
theorem digitClass_ne {c x : Char} (hc : digitClass c = true) (hx : digitClass x = false) : c ≠ x := by
  intro he
  rw [he] at hc
  rw [hc] at hx
  simp at hx

/-- C8 (confirmed): a payload timestamp of the shape
`YYYY-MM-DDTHH:MM:SSZ` is reformatted by replacing the `T` with a space
and the `Z` with `" UTC"`; with no payload timestamp the current UTC
time is used, formatted `YYYY-MM-DD HH:MM:SS UTC`. -/
theorem C8_release_timestamp :
    (∀ (now : UtcTime) (y1 y2 y3 y4 mo1 mo2 d1 d2 h1 h2 mi1 mi2 s1 s2 : Char),
      (∀ c ∈ [y1, y2, y3, y4, mo1, mo2, d1, d2, h1, h2, mi1, mi2, s1, s2],
        digitClass c = true) →
      releaseTimeOf now
          (some (isoTimestamp y1 y2 y3 y4 mo1 mo2 d1 d2 h1 h2 mi1 mi2 s1 s2).asString) =
        ([y1, y2, y3, y4, '-', mo1, mo2, '-', d1, d2, ' ', h1, h2, ':', mi1, mi2, ':',
          s1, s2] ++ " UTC".data).asString) ∧
    (∀ now : UtcTime, releaseTimeOf now none = strftimeUTC now) := by
  constructor
  · intro now y1 y2 y3 y4 mo1 mo2 d1 d2 h1 h2 mi1 mi2 s1 s2 h
    have hTd : digitClass 'T' = false := by decide
    have hZd : digitClass 'Z' = false := by decide
    have hy1T : y1 ≠ 'T' := digitClass_ne (h y1 (by simp)) hTd
    have hy2T : y2 ≠ 'T' := digitClass_ne (h y2 (by simp)) hTd
    have hy3T : y3 ≠ 'T' := digitClass_ne (h y3 (by simp)) hTd
    have hy4T : y4 ≠ 'T' := digitClass_ne (h y4 (by simp)) hTd
    have hmo1T : mo1 ≠ 'T' := digitClass_ne (h mo1 (by simp)) hTd
    have hmo2T : mo2 ≠ 'T' := digitClass_ne (h mo2 (by simp)) hTd
    have hd1T : d1 ≠ 'T' := digitClass_ne (h d1 (by simp)) hTd
    have hd2T : d2 ≠ 'T' := digitClass_ne (h d2 (by simp)) hTd
    have hh1T : h1 ≠ 'T' := digitClass_ne (h h1 (by simp)) hTd
    have hh2T : h2 ≠ 'T' := digitClass_ne (h h2 (by simp)) hTd
    have hmi1T : mi1 ≠ 'T' := digitClass_ne (h mi1 (by simp)) hTd
    have hmi2T : mi2 ≠ 'T' := digitClass_ne (h mi2 (by simp)) hTd
    have hs1T : s1 ≠ 'T' := digitClass_ne (h s1 (by simp)) hTd
    have hs2T : s2 ≠ 'T' := digitClass_ne (h s2 (by simp)) hTd
    have hy1Z : y1 ≠ 'Z' := digitClass_ne (h y1 (by simp)) hZd
    have hy2Z : y2 ≠ 'Z' := digitClass_ne (h y2 (by simp)) hZd
    have hy3Z : y3 ≠ 'Z' := digitClass_ne (h y3 (by simp)) hZd
    have hy4Z : y4 ≠ 'Z' := digitClass_ne (h y4 (by simp)) hZd
    have hmo1Z : mo1 ≠ 'Z' := digitClass_ne (h mo1 (by simp)) hZd
    have hmo2Z : mo2 ≠ 'Z' := digitClass_ne (h mo2 (by simp)) hZd
    have hd1Z : d1 ≠ 'Z' := digitClass_ne (h d1 (by simp)) hZd
    have hd2Z : d2 ≠ 'Z' := digitClass_ne (h d2 (by simp)) hZd
    have hh1Z : h1 ≠ 'Z' := digitClass_ne (h h1 (by simp)) hZd
    have hh2Z : h2 ≠ 'Z' := digitClass_ne (h h2 (by simp)) hZd
    have hmi1Z : mi1 ≠ 'Z' := digitClass_ne (h mi1 (by simp)) hZd
    have hmi2Z : mi2 ≠ 'Z' := digitClass_ne (h mi2 (by simp)) hZd
    have hs1Z : s1 ≠ 'Z' := digitClass_ne (h s1 (by simp)) hZd
    have hs2Z : s2 ≠ 'Z' := digitClass_ne (h s2 (by simp)) hZd
    have hne : (isoTimestamp y1 y2 y3 y4 mo1 mo2 d1 d2 h1 h2 mi1 mi2 s1 s2).asString ≠ "" := by
      intro he
      have hdata := congrArg String.data he
      have hdata2 : isoTimestamp y1 y2 y3 y4 mo1 mo2 d1 d2 h1 h2 mi1 mi2 s1 s2 = [] := hdata
      exact absurd hdata2 (by simp [isoTimestamp])
    simp only [releaseTimeOf]
    rw [if_pos hne]
    have hasd : ∀ l : List Char, (l.asString).data = l := fun l => rfl
    simp [hasd, isoTimestamp, replaceChar, hy1T, hy2T, hy3T, hy4T, hmo1T, hmo2T, hd1T, hd2T,
      hh1T, hh2T, hmi1T, hmi2T, hs1T, hs2T, hy1Z, hy2Z, hy3Z, hy4Z, hmo1Z, hmo2Z,
      hd1Z, hd2Z, hh1Z, hh2Z, hmi1Z, hmi2Z, hs1Z, hs2Z]
  · intro now
    rfl

/-- C8 (witness): the fixed timestamp of the source comment,
`2023-10-05T14:48:00Z`. -/
theorem C8_witness :
    releaseTimeOf ⟨2025, 6, 7, 8, 9, 10⟩
        (some (isoTimestamp '2' '0' '2' '3' '1' '0' '0' '5' '1' '4' '4' '8' '0' '0').asString) =
      (['2', '0', '2', '3', '-', '1', '0', '-', '0', '5', ' ', '1', '4', ':', '4', '8',
        ':', '0', '0'] ++ " UTC".data).asString :=
  C8_release_timestamp.1 ⟨2025, 6, 7, 8, 9, 10⟩
    '2' '0' '2' '3' '1' '0' '0' '5' '1' '4' '4' '8' '0' '0' (by decide)

/-- C3 (confirmed): the write of `release_notes.md` is attempted first
(before any release lookup or patch); in dry-run mode no remote call is
ever issued and the exit status is 0; in live mode a lookup or patch
failure yields exit status 1 with the previously written file still on
disk. -/
theorem C3_delivery_order :
    ∀ (markdown_body current_tag : String) (is_dry_run writeOk : Bool)
      (lookup : Except Unit Nat) (patch : Except Unit Unit),
      ((deliveryPhase markdown_body current_tag is_dry_run writeOk lookup patch).head? =
        some (if writeOk then GEvent.fileWrite "release_notes.md" markdown_body
          else GEvent.fileWriteError)) ∧
      (writeOk = true → ∃ rest,
        deliveryPhase markdown_body current_tag is_dry_run writeOk lookup patch =
          GEvent.fileWrite "release_notes.md" markdown_body :: rest) ∧
      (is_dry_run = true →
        (∀ e ∈ deliveryPhase markdown_body current_tag is_dry_run writeOk lookup patch,
          isRemoteEvent e = false) ∧
        gExitCode (deliveryPhase markdown_body current_tag is_dry_run writeOk lookup patch) =
          some 0) ∧
      (is_dry_run = false → (lookup = Except.error () ∨ patch = Except.error ()) →
        gExitCode (deliveryPhase markdown_body current_tag is_dry_run writeOk lookup patch) =
          some 1 ∧
        (writeOk = true →
          diskAfter (deliveryPhase markdown_body current_tag is_dry_run writeOk lookup patch) =
            some markdown_body)) := by
  intro markdown_body current_tag is_dry_run writeOk lookup patch
  refine ⟨?_, ?_, ?_, ?_⟩
  · cases writeOk <;> cases is_dry_run <;> simp [deliveryPhase]
  · rintro rfl
    cases is_dry_run <;> exact ⟨_, rfl⟩
  · rintro rfl
    cases writeOk <;>
      simp [deliveryPhase, gExitCode, isRemoteEvent, List.mem_cons, List.mem_singleton]
  · rintro rfl hfail
    cases writeOk <;> rcases hfail with rfl | rfl <;>
      [skip; cases lookup; skip; cases lookup] <;>
      simp [deliveryPhase, gExitCode, diskAfter]

/-- C3 (witness): live mode with a failing lookup after a successful
write: exit 1 and the file still on disk. -/
theorem C3_witness :
    gExitCode (deliveryPhase "BODY" "v1.0.1" false true (Except.error ()) (Except.ok ())) =
      some 1 ∧
    diskAfter (deliveryPhase "BODY" "v1.0.1" false true (Except.error ()) (Except.ok ())) =
      some "BODY" := by
  have h := (C3_delivery_order "BODY" "v1.0.1" false true (Except.error ())
    (Except.ok ())).2.2.2 rfl (Or.inl rfl)
  exact ⟨h.1, h.2 rfl⟩

/-- C9 (confirmed): a failed local write only replaces the write event
by an error event; everything after it, and the exit status, are
identical to a successful write. -/
theorem C9_write_failure_nonfatal :
    ∀ (markdown_body current_tag : String) (is_dry_run : Bool)
      (lookup : Except Unit Nat) (patch : Except Unit Unit),
      deliveryPhase markdown_body current_tag is_dry_run false lookup patch =
        GEvent.fileWriteError ::
          (deliveryPhase markdown_body current_tag is_dry_run true lookup patch).tail ∧
      gExitCode (deliveryPhase markdown_body current_tag is_dry_run false lookup patch) =
        gExitCode (deliveryPhase markdown_body current_tag is_dry_run true lookup patch) := by
  intro markdown_body current_tag is_dry_run lookup patch
  cases is_dry_run <;> cases lookup <;> cases patch <;>
    simp [deliveryPhase, gExitCode]

/-- A failure path always exits with status 1. -/
theorem vExitCode_fail (env : ValidatorEnv) (m : String) :
    vExitCode (fail_with_comment env m) = some 1 := by
  unfold fail_with_comment vExitCode
  split <;> simp

/-- The only events of a failure path are the optional comment and the
exit. -/
theorem mem_fail_with_comment {env : ValidatorEnv} {m : String} {e : VEvent}
    (h : e ∈ fail_with_comment env m) :
    e = VEvent.ghComment m ∨ e = VEvent.exited 1 := by
  unfold fail_with_comment at h
  split at h <;> simp at h <;> tauto

/-- C5 (confirmed): on a push event whose commit message starts with
`Merge pull request` or `Merge branch`, the validator immediately exits
0: its whole trace is the exit, with no pattern check, no Linear query
and no comment post. -/
theorem C5_merge_commit_skip :
    ∀ (dumps : PyVal → String) (exn : String) (env : ValidatorEnv)
      (resp : Except String PyVal),
      env.event_name = some "push" →
      ("Merge pull request".data.isPrefixOf env.commit_msg.data = true ∨
        "Merge branch".data.isPrefixOf env.commit_msg.data = true) →
      validatorRun dumps exn env resp = [VEvent.exited 0] := by
  intro dumps exn env resp hev hm
  unfold validatorRun
  rw [if_pos hev, if_pos hm]

/-- C5 (witness): a concrete merge-branch commit message. -/
theorem C5_witness :
    validatorRun (fun _ => "") "" ⟨some "push", "Merge branch dev into main", "", "",
      some "key", none, none, none⟩ (Except.error "down") = [VEvent.exited 0] :=
  C5_merge_commit_skip (fun _ => "") "" _ (Except.error "down") rfl (Or.inr (by decide))

/-- C6 (confirmed): on a pull_request event, an empty-or-`"None"` body
falls back to the title (failing immediately with exit 1 and the
descriptive message when the title is empty too), and otherwise the
first line of the body is the text validated. -/
theorem C6_pull_request_source :
    ∀ (dumps : PyVal → String) (exn : String) (env : ValidatorEnv)
      (resp : Except String PyVal),
      env.event_name = some "pull_request" →
      ((env.pr_body = "" ∨ env.pr_body = "None") →
        (env.pr_title = "" →
          validatorRun dumps exn env resp =
            fail_with_comment env "PR Description is empty and PR Title is missing/empty." ∧
          vExitCode (validatorRun dumps exn env resp) = some 1 ∧
          ∀ t, VEvent.patternCheck t ∉ validatorRun dumps exn env resp) ∧
        (env.pr_title ≠ "" →
          (validatorRun dumps exn env resp).head? =
            some (VEvent.patternCheck env.pr_title))) ∧
      (¬(env.pr_body = "" ∨ env.pr_body = "None") →
        (validatorRun dumps exn env resp).head? =
          some (VEvent.patternCheck (firstLineOf env.pr_body))) := by
  intro dumps exn env resp hev
  have hnotpush : ¬ env.event_name = some "push" := by
    rw [hev]
    simp
  constructor
  · intro hbody
    constructor
    · intro htitle
      have heq : validatorRun dumps exn env resp =
          fail_with_comment env "PR Description is empty and PR Title is missing/empty." := by
        unfold validatorRun
        rw [if_neg hnotpush, if_pos hev, if_pos hbody, if_pos htitle]
      refine ⟨heq, ?_, ?_⟩
      · rw [heq]
        exact vExitCode_fail env _
      · intro t hmem
        rw [heq] at hmem
        rcases mem_fail_with_comment hmem with h | h <;> cases h
    · intro htitle
      unfold validatorRun
      rw [if_neg hnotpush, if_pos hev, if_pos hbody, if_neg htitle]
      rfl
  · intro hbody
    unfold validatorRun
    rw [if_neg hnotpush, if_pos hev, if_neg hbody]
    rfl

/-- C6 (witness): empty body, nonempty title: the title is the text
checked. -/
theorem C6_witness :
    (validatorRun (fun _ => "") "" ⟨some "pull_request", "", "", "ENG-123: a fine change",
      some "key", none, none, none⟩ (Except.error "down")).head? =
      some (VEvent.patternCheck "ENG-123: a fine change") :=
  ((C6_pull_request_source (fun _ => "") "" _ (Except.error "down") rfl).1
    (Or.inl rfl)).2 (by decide)

/-- `.get` succeeds exactly on objects. -/
theorem pyGetAttr_eq (exn : String) (v : PyVal) (k : String) :
    pyGetAttr exn v k =
      if isDict v = true then Except.ok (pyField v k) else Except.error exn := by
  cases v <;> rfl

/-- C4 (amended): the validator's response processing exits 0 exactly
when the decoded response is an object whose `data` field is a truthy
object whose `issue` field is a truthy object with a truthy `id`
(Python truthiness, not mere non-nullness); every other response exits
1; a transport error is reported with the connection message, and the
three failure messages (API/auth, not-found, connection) are pairwise
distinct. -/
theorem C4_existence_check :
    (∀ (dumps : PyVal → String) (exn : String) (env : ValidatorEnv) (ticket_id : String)
      (resp : Except String PyVal),
      (vExitCode (linearRespEvents dumps exn env ticket_id resp) = some 0 ↔
        respSuccessShape resp) ∧
      (¬ respSuccessShape resp →
        vExitCode (linearRespEvents dumps exn env ticket_id resp) = some 1) ∧
      (∀ e, linearRespEvents dumps exn env ticket_id (Except.error e) =
        fail_with_comment env (connErrorMsg e))) ∧
    (∀ e dump t, connErrorMsg e ≠ authErrorMsg dump ∧ connErrorMsg e ≠ notFoundMsg t ∧
      authErrorMsg dump ≠ notFoundMsg t) := by
  constructor
  · intro dumps exn env tid resp
    have hmain : (vExitCode (linearRespEvents dumps exn env tid resp) = some 0 ↔
        respSuccessShape resp) ∧
        (¬ respSuccessShape resp →
          vExitCode (linearRespEvents dumps exn env tid resp) = some 1) := by
      cases resp with
      | error e =>
        have htr : linearRespEvents dumps exn env tid (Except.error e) =
            fail_with_comment env (connErrorMsg e) := rfl
        rw [htr, vExitCode_fail]
        constructor
        · apply iff_of_false (by simp)
          rintro ⟨r, hr, _⟩
          cases hr
        · intro _
          rfl
      | ok r =>
        by_cases h1 : isDict r = true
        · by_cases h2 : truthy (pyField r "data") = true
          · by_cases h3 : isDict (pyField r "data") = true
            · by_cases h4 : truthy (pyField (pyField r "data") "issue") = true
              · by_cases h5 : isDict (pyField (pyField r "data") "issue") = true
                · by_cases h6 : truthy (pyField (pyField (pyField r "data") "issue")
                      "id") = true
                  · have htr : linearRespEvents dumps exn env tid (Except.ok r) =
                        [VEvent.exited 0] := by
                      simp [linearRespEvents, pyGetAttr_eq, h1, h2, h3, h4, h5, h6]
                    rw [htr]
                    constructor
                    · apply iff_of_true rfl
                      exact ⟨r, rfl, h1, h2, h3, h4, h5, h6⟩
                    · intro hns
                      exact absurd ⟨r, rfl, h1, h2, h3, h4, h5, h6⟩ hns
                  · have htr : linearRespEvents dumps exn env tid (Except.ok r) =
                        fail_with_comment env (notFoundMsg tid) := by
                      simp [linearRespEvents, pyGetAttr_eq, h1, h2, h3, h4, h5, h6]
                    rw [htr, vExitCode_fail]
                    constructor
                    · apply iff_of_false (by simp)
                      rintro ⟨r', hr', _, _, _, _, _, hid⟩
                      injection hr' with hr'
                      subst hr'
                      exact absurd hid h6
                    · intro _
                      rfl
                · have htr : linearRespEvents dumps exn env tid (Except.ok r) =
                      fail_with_comment env (connErrorMsg exn) := by
                    simp [linearRespEvents, pyGetAttr_eq, h1, h2, h3, h4, h5]
                  rw [htr, vExitCode_fail]
                  constructor
                  · apply iff_of_false (by simp)
                    rintro ⟨r', hr', _, _, _, _, hd, _⟩
                    injection hr' with hr'
                    subst hr'
                    exact absurd hd h5
                  · intro _
                    rfl
              · have htr : linearRespEvents dumps exn env tid (Except.ok r) =
                    fail_with_comment env (notFoundMsg tid) := by
                  simp [linearRespEvents, pyGetAttr_eq, h1, h2, h3, h4]
                rw [htr, vExitCode_fail]
                constructor
                · apply iff_of_false (by simp)
                  rintro ⟨r', hr', _, _, _, hiss, _, _⟩
                  injection hr' with hr'
                  subst hr'
                  exact absurd hiss h4
                · intro _
                  rfl
            · have htr : linearRespEvents dumps exn env tid (Except.ok r) =
                  fail_with_comment env (connErrorMsg exn) := by
                simp [linearRespEvents, pyGetAttr_eq, h1, h2, h3]
              rw [htr, vExitCode_fail]
              constructor
              · apply iff_of_false (by simp)
                rintro ⟨r', hr', _, _, hd, _, _, _⟩
                injection hr' with hr'
                subst hr'
                exact absurd hd h3
              · intro _
                rfl
          · have htr : linearRespEvents dumps exn env tid (Except.ok r) =
                fail_with_comment env (authErrorMsg (dumps r)) := by
              simp [linearRespEvents, pyGetAttr_eq, h1, h2]
            rw [htr, vExitCode_fail]
            constructor
            · apply iff_of_false (by simp)
              rintro ⟨r', hr', _, hd, _, _, _, _⟩
              injection hr' with hr'
              subst hr'
              exact absurd hd h2
            · intro _
              rfl
        · have htr : linearRespEvents dumps exn env tid (Except.ok r) =
              fail_with_comment env (connErrorMsg exn) := by
            simp [linearRespEvents, pyGetAttr_eq, h1]
          rw [htr, vExitCode_fail]
          constructor
          · apply iff_of_false (by simp)
            rintro ⟨r', hr', hd, _⟩
            injection hr' with hr'
            subst hr'
            exact absurd hd h1
          · intro _
            rfl
    exact ⟨hmain.1, hmain.2, fun e => rfl⟩
  · intro e dump t
    have hE : "Error connecting to Linear API: ".data =
        'E' :: "rror connecting to Linear API: ".data := rfl
    have hL : "Linear API Error or Auth Failed.\nResponse: ".data =
        'L' :: "inear API Error or Auth Failed.\nResponse: ".data := rfl
    refine ⟨?_, ?_, ?_⟩
    · intro h
      have hc := congrArg String.data h
      unfold connErrorMsg authErrorMsg at hc
      rw [String.data_append, String.data_append, hE, hL] at hc
      simp only [List.cons_append] at hc
      injection hc with hhead _
      exact absurd hhead (by decide)
    · intro h
      have hc := congrArg String.data h
      unfold connErrorMsg notFoundMsg at hc
      simp only [String.data_append] at hc
      simp only [List.cons_append] at hc
      injection hc with hhead _
      exact absurd hhead (by decide)
    · intro h
      have hc := congrArg String.data h
      unfold authErrorMsg notFoundMsg at hc
      simp only [String.data_append] at hc
      simp only [List.cons_append] at hc
      injection hc with hhead _
      exact absurd hhead (by decide)

/-- C4 (counterexample): a response whose `id` is the empty string is
non-null everywhere (so the claim's condition holds), yet the code
takes the not-found branch and exits 1. -/
theorem C4_counterexample :
    claimRespSuccess (Except.ok (PyVal.dict [("data", PyVal.dict [("issue",
      PyVal.dict [("id", PyVal.str "")])])])) ∧
    vExitCode (linearRespEvents (fun _ => "") "" ⟨some "push", "", "", "", some "k",
      none, none, none⟩ "ENG-123"
      (Except.ok (PyVal.dict [("data", PyVal.dict [("issue",
        PyVal.dict [("id", PyVal.str "")])])]))) = some 1 := by
  constructor
  · exact ⟨_, rfl, rfl, rfl, rfl⟩
  · rfl

/-- C4 (witness): a connection failure exits 1. -/
theorem C4_witness :
    vExitCode (linearRespEvents (fun _ => "") "" ⟨none, "", "", "", none, none, none, none⟩
      "ENG-1" (Except.error "boom")) = some 1 :=
  (C4_existence_check.1 (fun _ => "") "" ⟨none, "", "", "", none, none, none, none⟩
    "ENG-1" (Except.error "boom")).2.1 (by rintro ⟨r, hr, _⟩; cases hr)

